import Mathlib

/-!
Verification of the newsletter production tool's core logic: news discovery
and deduplication, recency filtering, date-parse fallback, tier/permission
resolution, authentication, selection handling, publication assembly and
feed-configuration validation.  Each definition is a shallow embedding of
the corresponding Python function; external collaborators (network fetch,
datastore, hashing, `strptime`) are passed in as explicit function
parameters.  Timestamps are modelled as integer seconds; calendar dates as
integer day ordinals.
-/

/-- Timestamps: seconds since an arbitrary epoch (models `datetime`). -/
abbrev DT := Int

/-- Python's `str.lower()` (ASCII case folding suffices here). -/
def pyLower (s : String) : String := ⟨s.data.map Char.toLower⟩

/-- Whitespace stripped by Python's `str.strip()`. -/
def isPySpace (c : Char) : Bool := c = ' ' ∨ c = '\t' ∨ c = '\n' ∨ c = '\r'

/-- Python's `str.strip()`. -/
def pyStrip (s : String) : String :=
  ⟨((s.data.dropWhile isPySpace).reverse.dropWhile isPySpace).reverse⟩

/-- `needle` starts `hay` (character lists). -/
def charsStartWith : List Char → List Char → Bool
  | [], _ => true
  | _ :: _, [] => false
  | a :: as, b :: bs => a = b && charsStartWith as bs

/-- Python's `hay.startswith(needle)`. -/
def strStarts (hay needle : String) : Bool := charsStartWith needle.data hay.data

/-- `timedelta.days` of `now - pub`: Python normalises a timedelta's day
count by flooring, which is `Int.fdiv` by 86400 on the seconds. -/
def daysBetween (now pub : DT) : Int := (now - pub).fdiv 86400

/- ---------------------------------------------------------------------
   Tier → permission resolution (customer_selector.py, lines 337-363)
   --------------------------------------------------------------------- -/

/-- `get_permission_tier_requirements`: the fixed tier table. -/
def get_permission_tier_requirements : List (String × List String) :=
  [("premium", ["view", "edit", "generate", "manage_config", "edit_config"]),
   ("standard", ["view", "generate"]),
   ("basic", ["view"])]

/-- The permission list `check_tier_permissions` resolves for a tier:
`tier_reqs.get(tier.lower(), ["view"])`. -/
def resolvePerms (tier : String) : List String :=
  (get_permission_tier_requirements.lookup (pyLower tier)).getD (["view"])

/-- `check_tier_permissions(tier, required_permission)`. -/
def check_tier_permissions (tier required : String) : Bool :=
  required ∈ resolvePerms tier

/- ---------------------------------------------------------------------
   User access records and permission lookup (customer_selector.py)
   --------------------------------------------------------------------- -/

/-- One entry of a tenant's `user_access.json` `users` list.  Every field
is optional, mirroring `dict.get` access with defaults in the source. -/
structure UserRecord where
  email : Option String
  password : Option String
  tier : Option String
  role : Option String
  permissions : Option (List String)
  status : Option String
  valid_until : Option String
  added_date : Option String
  added_by : Option String
deriving DecidableEq

/-- The linear scan `for user in users: if user.get("email","").lower() ==
user_email.lower()` shared by `get_user_permissions` and
`get_user_newsletters`. -/
def findUser (users : List UserRecord) (email : String) : Option UserRecord :=
  users.find? (fun u => pyLower (u.email.getD ("")) == pyLower email)

/-- Result shape of `get_user_permissions` when the user is found. -/
structure PermInfo where
  tier : String
  role : String
  permissions : List String
deriving DecidableEq

/-- `get_user_permissions(user_email, customer_id)`; the external
`load_user_access` collaborator is the parameter `loadUA` (`none` models a
missing/empty access file).  `none` result models the empty dict. -/
def get_user_permissions (loadUA : String → Option (List UserRecord))
    (email customerId : String) : Option PermInfo :=
  if email = "" ∨ customerId = "" then none
  else match loadUA customerId with
    | none => none
    | some users =>
      match findUser users email with
      | none => none
      | some u =>
        some { tier := u.tier.getD ("basic"),
               role := u.role.getD ("viewer"),
               permissions := u.permissions.getD (["view"]) }

/-- `has_permission(user_email, customer_id, permission_name)`. -/
def has_permission (loadUA : String → Option (List UserRecord))
    (email customerId permName : String) : Bool :=
  let perms := match get_user_permissions loadUA email customerId with
    | none => []
    | some i => i.permissions
  if permName == "view" then decide (0 < perms.length)
  else decide (permName ∈ perms)

/-- The user's resolved permission list for a tenant, read off the
datastore directly (the natural reading of the spec): the first
case-insensitive email match in the tenant's user list, its `permissions`
field defaulted to `["view"]`, or `[]` when the tenant or user is absent. -/
def resolvedPermList (loadUA : String → Option (List UserRecord))
    (email customerId : String) : List String :=
  match loadUA customerId with
  | none => []
  | some users =>
    match findUser users email with
    | none => []
    | some u => u.permissions.getD (["view"])

/- ---------------------------------------------------------------------
   Authentication (customer_selector.py, lines 90-149)
   --------------------------------------------------------------------- -/

/-- The three `strptime` formats tried for `valid_until`, in order. -/
inductive DateFmt where
  | dmy  -- "%d/%m/%Y"
  | ymd  -- "%Y-%m-%d"
  | mdy  -- "%m/%d/%Y"
deriving DecidableEq

/-- The `for fmt in date_formats: try strptime` loop: first success wins.
`parse` is the external `strptime` collaborator, returning a calendar-day
ordinal. -/
def parseValidUntil (parse : DateFmt → String → Option Int) (s : String) : Option Int :=
  match parse .dmy s with
  | some d => some d
  | none =>
    match parse .ymd s with
    | some d => some d
    | none => parse .mdy s

/-- A row of `get_user_newsletters`' result: one tenant membership of the
user, with defaults already applied. -/
structure NewsletterAccess where
  customer_id : String
  name : String
  tier : String
  role : String
  permissions : List String
  added_date : String
  added_by : String
  password : String
  status : String
  valid_until : String
deriving DecidableEq

/-- Builds one membership row from a matched user record
(`user_newsletters.append({...})` in `get_user_newsletters`). -/
def mkAccess (cid nm : String) (u : UserRecord) : NewsletterAccess :=
  { customer_id := cid,
    name := nm,
    tier := u.tier.getD ("basic"),
    role := u.role.getD ("viewer"),
    permissions := u.permissions.getD (["view"]),
    added_date := u.added_date.getD (""),
    added_by := u.added_by.getD (""),
    password := u.password.getD (""),
    status := u.status.getD ("Active"),
    valid_until := u.valid_until.getD ("") }

/-- Newsletter display name: `load_config(cid,"branding")` then
`branding.get("application_name", "Newsletter")`; outer `Option` is a
missing/empty branding config, inner a missing `application_name` key. -/
def newsletterName (brandingOf : String → Option (Option String)) (cid : String) : String :=
  match brandingOf cid with
  | none => "Newsletter"
  | some appName => appName.getD ("Newsletter")

/-- Stable ascending sort by display name
(`user_newsletters.sort(key=lambda x: x["name"])`). -/
def sortByName (l : List NewsletterAccess) : List NewsletterAccess :=
  l.insertionSort (fun a b => a.name ≤ b.name)

/-- `get_user_newsletters(user_email)`: scan every tenant's access file
(the external `get_all_user_access_files` collaborator is the `files`
parameter, in storage order), take the first email match per tenant, then
sort by name. -/
def get_user_newsletters (files : List (String × List UserRecord))
    (brandingOf : String → Option (Option String)) (email : String) :
    List NewsletterAccess :=
  if email = "" then []
  else sortByName (files.filterMap (fun f =>
    (findUser f.2 email).map (mkAccess f.1 (newsletterName brandingOf f.1))))

/-- Outcome of `authenticate_user`: `(is_authenticated, error_message,
user_data)`. -/
structure AuthResult where
  ok : Bool
  error : String
  user : Option NewsletterAccess
deriving DecidableEq

/-- The account status check: `status.strip().lower() != "active"` rejects. -/
def isActiveStatus (s : String) : Bool := pyLower (pyStrip s) == "active"

/-- `authenticate_user(user_email, password)`; `today` models
`datetime.now().date()` and `parse` the `strptime` collaborator. -/
def authenticate_user (parse : DateFmt → String → Option Int) (today : Int)
    (files : List (String × List UserRecord))
    (brandingOf : String → Option (Option String))
    (email pw : String) : AuthResult :=
  if email = "" ∨ pw = "" then
    { ok := false, error := "Email and password are required.", user := none }
  else
    let ns := get_user_newsletters files brandingOf email
    if ns = [] then
      { ok := false, error := "Invalid email or password.", user := none }
    else
      match ns.find? (fun r => r.password == pw) with
      | none => { ok := false, error := "Invalid email or password.", user := none }
      | some r =>
        if ¬ isActiveStatus r.status then
          { ok := false, error := "Your account is not active. Contact administrator.",
            user := none }
        else
          let v := pyStrip r.valid_until
          if v ≠ "" then
            match parseValidUntil parse v with
            | some d =>
              if d < today then
                { ok := false, error := "Your account has expired. Contact administrator.",
                  user := none }
              else { ok := true, error := "", user := some r }
            | none => { ok := true, error := "", user := some r }
          else { ok := true, error := "", user := some r }

/- ---------------------------------------------------------------------
   Feed validation (config_manager.py, lines 126-154)
   --------------------------------------------------------------------- -/

/-- A configured RSS feed entry, fields optional as in the JSON dict. -/
structure FeedCfg where
  name : Option String
  url : Option String
deriving DecidableEq

/-- The per-feed loop of `validate_feeds`: first violation wins. -/
def feedFieldError : List FeedCfg → Option String
  | [] => none
  | f :: rest =>
    if f.name.getD ("") = "" ∨ f.url.getD ("") = "" then
      some ("All feeds must have both a name and URL.")
    else if ¬ ((strStarts (f.url.getD ("")) ("http://")) ∨
               (strStarts (f.url.getD ("")) ("https://"))) then
      some ("Invalid URL format for feed " ++ f.name.getD ("") ++
            ". Must start with http:// or https://")
    else feedFieldError rest

/-- `validate_feeds(feeds)`: field/format checks, then the duplicate-URL
check `len(urls) != len(set(urls))` (exact string equality). -/
def validate_feeds (feeds : List FeedCfg) : Bool × String :=
  if feeds = [] then (true, "")
  else
    match feedFieldError feeds with
    | some msg => (false, msg)
    | none =>
      let urls := feeds.map (fun f => f.url.getD (""))
      if urls.Nodup then (true, "")
      else (false, "Duplicate feed URLs found. Please remove duplicates.")

/- ---------------------------------------------------------------------
   Selection handling (article_dashboard.py)
   --------------------------------------------------------------------- -/

/-- The canonical article record produced by the fetchers. -/
structure Article where
  title : String
  url : String
  source : String
  published_dt : DT
  snippet : String
  category : String
  found_via : String
  article_id : String
deriving DecidableEq

/-- The "Select All" handler (display_articles, lines 121-125): add every
currently visible (filtered) article's id to the existing selection set. -/
def selectAllVisible (sel : Finset String) (visible : List Article) : Finset String :=
  visible.foldl (fun s a => insert a.article_id s) sel

/-- `select_articles(article_ids, articles)`: resolve ids against the pool
dict (`{a["article_id"]: a for a in articles}`, later entries overwrite
earlier ones) keeping the id-list order; absent ids contribute nothing. -/
def poolLookup (articles : List Article) (aid : String) : Option Article :=
  articles.reverse.find? (fun a => a.article_id == aid)

/-- `select_articles` proper. -/
def select_articles (ids : List String) (articles : List Article) : List Article :=
  ids.filterMap (poolLookup articles)

/-- Decidable "sorted by `published_datetime` descending". -/
def isSortedDesc : List Article → Bool
  | [] => true
  | [_] => true
  | a :: b :: rest => (b.published_dt ≤ a.published_dt) && isSortedDesc (b :: rest)

/- ---------------------------------------------------------------------
   Newsletter HTML assembly (newsletter_generator.py)
   --------------------------------------------------------------------- -/

/-- The HTML document header produced by `format_html_newsletter` up to the
date-info div (`genDate` models `datetime.now().strftime("%B %d, %Y")`). -/
def newsletterHead (title appName logoUrl genDate : String) : String :=
  "<!DOCTYPE html>
<html lang=\"en\">
<head>
    <meta charset=\"UTF-8\">
    <meta name=\"viewport\" content=\"width=device-width, initial-scale=1.0\">
    <title>" ++ title ++ "</title>
    <style>
        body \x7b
            font-family: Arial, sans-serif;
            line-height: 1.6;
            color: #333;
            max-width: 800px;
            margin: 0 auto;
            padding: 20px;
            background-color: #f5f5f5;
        \x7d
        .newsletter-container \x7b
            background-color: white;
            padding: 30px;
            border-radius: 8px;
            box-shadow: 0 2px 4px rgba(0,0,0,0.1);
        \x7d
        .header \x7b
            display: flex;
            align-items: center;
            gap: 12px;
            border-bottom: 3px solid #2c3e50;
            padding-bottom: 20px;
            margin-bottom: 30px;
        \x7d
        .logo \x7b height: 48px; \x7d
        .header h1 \x7b
            color: #2c3e50;
            margin: 0;
            font-size: 28px;
        \x7d
        .header .subtitle \x7b
            color: #7f8c8d;
            font-size: 14px;
            margin-top: 5px;
        \x7d
        .article \x7b
            margin-bottom: 40px;
            padding-bottom: 20px;
            border-bottom: 1px solid #e0e0e0;
        \x7d
        .article:last-child \x7b
            border-bottom: none;
        \x7d
        .article-title \x7b
            font-size: 20px;
            font-weight: bold;
            margin-bottom: 10px;
            color: #2c3e50;
        \x7d
        .article-title a \x7b
            color: #2c3e50;
            text-decoration: none;
        \x7d
        .article-title a:hover \x7b
            color: #3498db;
            text-decoration: underline;
        \x7d
        .article-meta \x7b
            font-size: 12px;
            color: #7f8c8d;
            margin-bottom: 10px;
        \x7d
        .article-snippet \x7b
            color: #555;
            margin-top: 10px;
            line-height: 1.6;
        \x7d
        .article-link \x7b
            display: inline-block;
            margin-top: 10px;
            padding: 8px 16px;
            background-color: #3498db;
            color: white;
            text-decoration: none;
            border-radius: 4px;
            font-size: 14px;
        \x7d
        .article-link:hover \x7b
            background-color: #2980b9;
        \x7d
        .footer \x7b
            margin-top: 40px;
            padding-top: 20px;
            border-top: 2px solid #e0e0e0;
            text-align: center;
            font-size: 12px;
            color: #7f8c8d;
        \x7d
        .footer a \x7b
            color: #3498db;
            text-decoration: none;
        \x7d
        .footer a:hover \x7b
            text-decoration: underline;
        \x7d
        .date-info \x7b
            text-align: center;
            color: #7f8c8d;
            font-size: 12px;
            margin-bottom: 20px;
        \x7d
    </style>
</head>
<body>
    <div class=\"newsletter-container\">
        <div class=\"header\">
            " ++
  (if logoUrl ≠ "" then
    "<img class=\"logo\" src=\"" ++ logoUrl ++ "\" alt=\"logo\" />" else "") ++ "
            <div>
                <h1 style=\"margin:0;\">" ++ title ++ "</h1>
                <div class=\"subtitle\">" ++ appName ++ "</div>
            </div>
        </div>
        
        <div class=\"date-info\">
            Generated on " ++ genDate ++ "
        </div>
"

/-- One article's HTML block in the loop of `format_html_newsletter`.
`showD` models the `strftime("%Y-%m-%d")` display form of the published
date carried in the article dict. -/
def articleBlock (showD : DT → String) (a : Article) : String :=
  "
        <div class=\"article\">
            <div class=\"article-title\">
                <a href=\"" ++ a.url ++ "\" target=\"_blank\">" ++ a.title ++ "</a>
            </div>
            <div class=\"article-meta\">
                ðŸ“° " ++ a.source ++ " | ðŸ“… " ++ (showD a.published_dt) ++ "
            </div>
            " ++
  (if a.snippet ≠ "" then
    "<div class=\"article-snippet\">" ++ a.snippet ++ "</div>" else "") ++ "
            <a href=\"" ++ a.url ++ "\" target=\"_blank\" class=\"article-link\">Read Full Article â†’</a>
        </div>
"

/-- The footer appended by `format_html_newsletter`. -/
def newsletterFoot (footerText footerUrl footerUrlDisplay : String) : String :=
  "
        <div class=\"footer\">
            <p>" ++ footerText ++ "</p>
            " ++
  (if footerUrl ≠ "" then
    "<p><a href=\"" ++ footerUrl ++ "\" target=\"_blank\">" ++ footerUrlDisplay ++
    "</a></p>" else "") ++ "
        </div>
    </div>
</body>
</html>
"

/-- `format_html_newsletter(articles, title, application_name, footer_text,
footer_url, footer_url_display, logo_url)`: the header, then `html +=
block` once per article in list order, then the footer. -/
def format_html_newsletter (showD : DT → String) (articles : List Article)
    (title appName footerText footerUrl footerUrlDisplay logoUrl genDate : String) :
    String :=
  (articles.foldl (fun acc a => acc ++ articleBlock showD a)
    (newsletterHead title appName logoUrl genDate)) ++
  newsletterFoot footerText footerUrl footerUrlDisplay

/-- Branding configuration dict, fields read with `dict.get` defaults. -/
structure BrandingCfg where
  application_name : Option String
  newsletter_title_template : Option String
  footer_text : Option String
  footer_url : Option String
  footer_url_display : Option String
  logo_path : Option String
deriving DecidableEq

/-- External collaborators of `generate_newsletter`. -/
structure GenEnv where
  week : Nat                          -- datetime.now().isocalendar()[1]
  year : Nat                          -- datetime.now().year
  genDate : String                    -- strftime("%B %d, %Y")
  showD : DT → String                 -- article published-date display form
  logoFetch : String → Option String  -- repo.get_contents(path).content (base64)
  secretsRepo : String                -- st.secrets.get("github_repo", "")
  urlQuote : String → String          -- urllib.parse.quote
  save : String → String → String → Option Bool  -- save_newsletter; none = raised

/-- `"{name} - Week {week}".format(...)` – template substitution. -/
def formatTitleTemplate (tpl name : String) (week : Nat) : String :=
  (tpl.replace ("\x7bname\x7d") name).replace ("\x7bweek\x7d") (toString week)

/-- Zero-padded two-digit week (`f"{week_number:02d}"`). -/
def pad2 (n : Nat) : String :=
  if n < 10 then "0" ++ toString n else toString n

/-- Mime guess for the logo (`'image/png' if ext in ('png',) else
'image/jpeg'`). -/
def logoMime (lp : String) : String :=
  let ext := pyLower ((lp.splitOn (".")).getLastD (""))
  if ext = "png" then "image/png" else "image/jpeg"

/-- The logo-URL computation in `generate_newsletter`: embed as data URI
when fetchable, else fall back to a raw GitHub link or the bare path. -/
def resolveLogoUrl (env : GenEnv) (lp : String) : String :=
  if lp = "" then ""
  else
    match env.logoFetch lp with
    | some b64 => "data:" ++ logoMime lp ++ ";base64," ++ b64
    | none =>
      if env.secretsRepo ≠ "" then
        "https://raw.githubusercontent.com/" ++ env.secretsRepo ++ "/main/" ++
          env.urlQuote lp
      else lp

/-- `generate_newsletter(selected_articles, branding, customer_id,
short_name)`.  Returns the saved filename (or `none`) together with the
list of `st.error` messages emitted. -/
def generate_newsletter (env : GenEnv) (selected : List Article)
    (branding : BrandingCfg) (customerId shortName : String) :
    Option String × List String :=
  if selected = [] then
    (none, ["No articles selected for newsletter generation"])
  else
    let appName := branding.application_name.getD ("Newsletter")
    let tpl := branding.newsletter_title_template.getD ("\x7bname\x7d - Week \x7bweek\x7d")
    let footerText := branding.footer_text.getD ("")
    let footerUrl := branding.footer_url.getD ("")
    let footerUrlDisplay := branding.footer_url_display.getD (footerUrl)
    let logoPath := branding.logo_path.getD ("")
    let title := formatTitleTemplate tpl appName env.week
    let filename :=
      if shortName ≠ "" then
        shortName ++ "_Week_" ++ pad2 env.week ++ "_" ++ toString env.year ++ ".html"
      else
        "Newsletter_Week_" ++ pad2 env.week ++ "_" ++ toString env.year ++ ".html"
    let logoUrl := resolveLogoUrl env logoPath
    let html := format_html_newsletter env.showD selected title appName footerText
      footerUrl footerUrlDisplay logoUrl env.genDate
    match env.save customerId html filename with
    | some true => (some filename, [])
    | some false => (none, ["Failed to save newsletter to GitHub"])
    | none => (none, ["Error saving newsletter"])

/- ---------------------------------------------------------------------
   News discovery (news_finder.py)
   --------------------------------------------------------------------- -/

/-- `needle` occurs inside `hay` (character lists). -/
def charsContain (needle : List Char) : List Char → Bool
  | [] => needle.isEmpty
  | b :: bs => charsStartWith needle (b :: bs) || charsContain needle bs

/-- Python's `needle in hay` on strings. -/
def strContains (hay needle : String) : Bool := charsContain needle.data hay.data

/-- The window computation shared by both fetchers:
`if "7" in time_period: days = 7 elif "14" ... elif "30" ... else 7`. -/
def timePeriodDays (tp : String) : Nat :=
  if strContains tp ("7") then 7
  else if strContains tp ("14") then 14
  else if strContains tp ("30") then 30
  else 7

/-- Outcome of the `strptime` attempts on an entry's `published` string:
`rfc822` is `"%a, %d %b %Y %H:%M:%S %Z"`, `iso` is `"%Y-%m-%dT%H:%M:%S"`. -/
structure PubStr where
  rfc822 : Option DT
  iso : Option DT
deriving DecidableEq

/-- A raw feedparser entry; each field `none` when the attribute/key is
missing (or, for `published_parsed`, falsy). -/
structure Entry where
  link : Option String
  published_parsed : Option DT
  published : Option PubStr
  title : Option String
  summary : Option String
  source_title : Option String
deriving DecidableEq

/-- Date resolution in `find_news_google` (lines 98-108): parsed struct,
else the RFC-822 string parse, else now.  There is no ISO attempt here. -/
def resolveGoogleDate (e : Entry) (now : DT) : DT :=
  match e.published_parsed with
  | some t => t
  | none =>
    match e.published with
    | some p => p.rfc822.getD now
    | none => now

/-- Date resolution in `find_news_rss` (lines 189-202): parsed struct,
else RFC-822, else ISO, else now. -/
def resolveRssDate (e : Entry) (now : DT) : DT :=
  match e.published_parsed with
  | some t => t
  | none =>
    match e.published with
    | some p =>
      match p.rfc822 with
      | some d => d
      | none => p.iso.getD now
    | none => now

/-- Modelled from the spec (§4.3), for refinement comparison only: "apply
in order, first success wins: (1) provider-native parsed time struct;
(2) RFC-822-style string parse; (3) ISO-8601 string parse; (4) fallback to
current time". -/
def specDateChain (e : Entry) (now : DT) : DT :=
  match e.published_parsed with
  | some t => t
  | none =>
    match e.published with
    | some p =>
      match p.rfc822 with
      | some d => d
      | none =>
        match p.iso with
        | some d => d
        | none => now
    | none => now

/-- Source label in `find_news_google` (lines 114-118). -/
def googleSourceLabel (e : Entry) : String :=
  let s := e.source_title.getD ("Unknown")
  if s = "" ∨ s = "Unknown" then "News Source" else s

/-- The article dict appended by `find_news_google`; `h` models
`hashlib.md5(url.encode()).hexdigest()[:12]`. -/
def mkGoogleArticle (h : String → String) (kw : String) (e : Entry) (pub : DT) : Article :=
  { title := e.title.getD (""),
    url := e.link.getD (""),
    source := googleSourceLabel e,
    published_dt := pub,
    snippet := e.summary.getD (""),
    category := kw,
    found_via := "google",
    article_id := h (e.link.getD ("")) }

/-- The article dict appended by `find_news_rss` (`src` is the feed's own
title, also used as the category). -/
def mkRssArticle (h : String → String) (src : String) (e : Entry) (pub : DT) : Article :=
  { title := e.title.getD (""),
    url := e.link.getD (""),
    source := src,
    published_dt := pub,
    snippet := e.summary.getD (""),
    category := src,
    found_via := "rss",
    article_id := h (e.link.getD ("")) }

/-- The shared per-entry loop body of both fetchers: skip already-seen
urls, resolve the published date, drop entries older than the window,
append the article and record the url. -/
def runEntries (mk : Entry → DT → Article) (resolve : Entry → DT → DT)
    (now : DT) (days : Int) :
    List Entry → List Article × List String → List Article × List String
  | [], st => st
  | e :: es, st =>
    let url := e.link.getD ("")
    if url ∈ st.2 then runEntries mk resolve now days es st
    else
      let pub := resolve e now
      if days < daysBetween now pub then runEntries mk resolve now days es st
      else runEntries mk resolve now days es (st.1 ++ [mk e pub], url :: st.2)

/-- The keyword loop of `find_news_google`; `fetch` models the network
request plus feed parse, `none` being a raised/caught exception for that
keyword (the loop continues). -/
def googleKeywordLoop (h : String → String) (fetch : String → Option (List Entry))
    (now : DT) (days : Int) (per : Nat) :
    List String → List Article × List String → List Article × List String
  | [], st => st
  | k :: ks, st =>
    match fetch k with
    | none => googleKeywordLoop h fetch now days per ks st
    | some entries =>
      googleKeywordLoop h fetch now days per ks
        (runEntries (mkGoogleArticle h k) resolveGoogleDate now days
          (entries.take per) st)

/-- `articles.sort(key=lambda x: x.get("published_datetime",""),
reverse=True)`: stable sort, newest first (the ISO string order coincides
with the timestamp order). -/
def sortArts (l : List Article) : List Article :=
  l.insertionSort (fun a b => b.published_dt ≤ a.published_dt)

/-- `find_news_google(keywords, time_period, max_results)`. -/
def find_news_google (h : String → String) (fetch : String → Option (List Entry))
    (keywords : List String) (tp : String) (maxResults : Nat) (now : DT) :
    List Article :=
  if keywords = [] then []
  else
    let days : Int := timePeriodDays tp
    let per := maxResults / keywords.length
    let st := googleKeywordLoop h fetch now days per keywords ([], [])
    (sortArts st.1).take maxResults

/-- A parsed RSS feed: its own title (`feed.feed.get("title", "RSS
Feed")`) and its entries. -/
structure RssFeed where
  ftitle : Option String
  entries : List Entry
deriving DecidableEq

/-- The feed loop of `find_news_rss`; `fetch` models `feedparser.parse`,
`none` a raised/caught exception for that feed (the loop continues; the
`bozo` flag only logs). -/
def rssFeedLoop (h : String → String) (fetch : String → Option RssFeed)
    (now : DT) (days : Int) :
    List String → List Article × List String → List Article × List String
  | [], st => st
  | u :: us, st =>
    match fetch u with
    | none => rssFeedLoop h fetch now days us st
    | some fd =>
      rssFeedLoop h fetch now days us
        (runEntries (mkRssArticle h (fd.ftitle.getD ("RSS Feed"))) resolveRssDate
          now days fd.entries st)

/-- `find_news_rss(feed_urls, time_period)`. -/
def find_news_rss (h : String → String) (fetch : String → Option RssFeed)
    (feedUrls : List String) (tp : String) (now : DT) : List Article :=
  if feedUrls = [] then []
  else
    let days : Int := timePeriodDays tp
    sortArts (rssFeedLoop h fetch now days feedUrls ([], [])).1

/-- The RSS merge step of `find_news_background` (lines 269-272): append
each RSS article whose url was not already seen. -/
def mergeRssArticles : List Article → List Article × List String → List Article × List String
  | [], st => st
  | a :: rest, st =>
    if a.url ∈ st.2 then mergeRssArticles rest st
    else mergeRssArticles rest (st.1 ++ [a], a.url :: st.2)

/-- The final exact-URL dedup pass of `find_news_background`
(lines 275-280), keeping the first occurrence of each url. -/
def dedupByUrl : List Article → List String → List Article
  | [], _ => []
  | a :: rest, seen =>
    if a.url ∈ seen then dedupByUrl rest seen
    else a :: dedupByUrl rest (a.url :: seen)

/-- `find_news_background(keywords, feed_urls, time_period)`: Google pass,
RSS pass gap-filling only unseen urls, residual dedup, newest-first sort.
(The progress callback only emits status strings and is omitted.) -/
def find_news_background (h : String → String)
    (fetchG : String → Option (List Entry)) (fetchR : String → Option RssFeed)
    (keywords feedUrls : List String) (tp : String) (maxResults : Nat)
    (now : DT) : List Article :=
  let google := if keywords = [] then []
    else find_news_google h fetchG keywords tp maxResults now
  let rss := if feedUrls = [] then []
    else find_news_rss h fetchR feedUrls tp now
  let merged := mergeRssArticles rss (google, google.map (fun a => a.url))
  sortArts (dedupByUrl merged.1 [])

/- ---------------------------------------------------------------------
   Concrete fixtures (used by counterexamples and witnesses)
   --------------------------------------------------------------------- -/

/-- Concatenation of a string list, in order. -/
def concatAll : List String → String
  | [] => ""
  | s :: rest => s ++ concatAll rest

/-- A stand-in for the md5-derived id oracle. -/
def demoHash : String → String := fun _ => "id1"

/-- An entry whose provider struct says epoch 0. -/
def oldEntry : Entry :=
  { link := some "http://old", published_parsed := some 0, published := none,
    title := some "t", summary := none, source_title := none }

/-- A fetch oracle returning exactly `oldEntry` for every keyword. -/
def demoFetchG : String → Option (List Entry) := fun _ => some [oldEntry]

/-- An RSS fetch oracle that always fails. -/
def demoFetchR : String → Option RssFeed := fun _ => none

/-- Entry whose `published` string parses only as ISO-8601 (epoch 1000). -/
def isoOnlyEntry : Entry :=
  { link := some "http://a", published_parsed := none,
    published := some { rfc822 := none, iso := some 1000 },
    title := none, summary := none, source_title := none }

/-- Two feeds whose urls differ only in letter case. -/
def dupCaseFeeds : List FeedCfg :=
  [{ name := some "a", url := some "http://NEWS.example.com/feed" },
   { name := some "b", url := some "http://news.example.com/feed" }]

/-- Newer article (id "a"). -/
def artA : Article :=
  { title := "A", url := "uA", source := "s", published_dt := 2, snippet := "",
    category := "", found_via := "google", article_id := "a" }

/-- Older article (id "b"). -/
def artB : Article :=
  { title := "B", url := "uB", source := "s", published_dt := 1, snippet := "",
    category := "", found_via := "google", article_id := "b" }

/-- A demo user-access record. -/
def demoUser : UserRecord :=
  { email := some "A@X.com", password := some "pw", tier := some "standard",
    role := none, permissions := some ["view", "generate"], status := some "Active",
    valid_until := some "not-a-date", added_date := none, added_by := none }

/-- A demo datastore with one tenant. -/
def demoLoadUA : String → Option (List UserRecord) :=
  fun c => if c = "acme" then some [demoUser] else none

/-- Demo tenant list for authentication. -/
def demoFiles : List (String × List UserRecord) := [("acme", [demoUser])]

/-- Demo branding lookup (no branding configured). -/
def demoBranding : String → Option (Option String) := fun _ => none

/-- A `strptime` oracle on which every parse fails. -/
def demoParse : DateFmt → String → Option Int := fun _ _ => none

/- =====================================================================
   Theorems
   ===================================================================== -/

/-- Helper: `html += block` in a loop equals header-then-blocks-in-order. -/
theorem foldl_append_concatAll (f : Article → String) :
    ∀ (l : List Article) (init : String),
      l.foldl (fun acc a => acc ++ f a) init = init ++ concatAll (l.map f) := by
  intro l
  induction l with
  | nil => intro init; simp [concatAll]
  | cons a rest ih =>
    intro init
    simp only [List.foldl_cons, List.map_cons, concatAll]
    rw [ih, String.append_assoc]

/-- Claim C3: the tier-to-permission resolution is total and fixed —
"premium", "standard" and "basic" map exactly to the §4.4 table, and any
tier string the resolver does not recognise (its lowercasing is none of
the three) resolves to exactly `["view"]`; `check_tier_permissions`
decides membership in the resolved list. -/
theorem c3_tier_mapping :
    resolvePerms "premium" = ["view", "edit", "generate", "manage_config", "edit_config"] ∧
    resolvePerms "standard" = ["view", "generate"] ∧
    resolvePerms "basic" = ["view"] ∧
    (∀ t : String, pyLower t ∉ (["premium", "standard", "basic"] : List String) →
      resolvePerms t = ["view"]) ∧
    (∀ t p : String, check_tier_permissions t p = true ↔ p ∈ resolvePerms t) := by
  refine ⟨by decide, by decide, by decide, ?_, ?_⟩
  · intro t ht
    have h1 : (pyLower t == "premium") = false := by
      apply beq_eq_false_iff_ne.mpr; intro h; exact ht (by rw [h]; simp)
    have h2 : (pyLower t == "standard") = false := by
      apply beq_eq_false_iff_ne.mpr; intro h; exact ht (by rw [h]; simp)
    have h3 : (pyLower t == "basic") = false := by
      apply beq_eq_false_iff_ne.mpr; intro h; exact ht (by rw [h]; simp)
    simp [resolvePerms, get_permission_tier_requirements, List.lookup, h1, h2, h3]
  · intro t p
    exact decide_eq_true_iff

/-- Witness for C3: a tier string outside the table resolves to `["view"]`. -/
theorem c3_tier_mapping_witness : resolvePerms "gold" = ["view"] :=
  c3_tier_mapping.2.2.2.1 "gold" (by decide)

/-- Claim C7: select-all is additive — it yields exactly the union of the
prior selection with the visible ids, so filtered-out prior selections are
preserved. -/
theorem c7_select_all_additive (sel : Finset String) (visible : List Article) :
    sel ⊆ selectAllVisible sel visible ∧
    selectAllVisible sel visible =
      sel ∪ (visible.map (fun a => a.article_id)).toFinset := by
  have key : ∀ (vs : List Article) (s : Finset String),
      selectAllVisible s vs = s ∪ (vs.map (fun a => a.article_id)).toFinset := by
    intro vs
    induction vs with
    | nil => intro s; simp [selectAllVisible]
    | cons a rest ih =>
      intro s
      have h1 : selectAllVisible s (a :: rest) =
          selectAllVisible (insert a.article_id s) rest := rfl
      rw [h1, ih]
      simp [Finset.insert_union, Finset.union_insert]
  refine ⟨?_, key visible sel⟩
  rw [key visible sel]
  exact Finset.subset_union_left

/-- Claim C9: generating with zero selected articles produces the
validation error and no document. -/
theorem c9_empty_selection (env : GenEnv) (branding : BrandingCfg)
    (customerId shortName : String) :
    generate_newsletter env [] branding customerId shortName =
      (none, ["No articles selected for newsletter generation"]) := rfl

/-- Counterexample for C10: a feed list with two urls differing only in
letter case is accepted by `validate_feeds`, so case-insensitive
uniqueness is not enforced. -/
theorem c10_counterexample :
    validate_feeds dupCaseFeeds = (true, "") ∧
    ¬ ((dupCaseFeeds.map (fun f => pyLower (f.url.getD ("")))).Nodup) := by
  constructor
  · decide
  · decide

/-- Claim C10 (amended): `validate_feeds` enforces exact (case-sensitive)
uniqueness of feed urls — every accepted list has pairwise distinct url
strings. -/
theorem c10_amended (feeds : List FeedCfg)
    (hacc : (validate_feeds feeds).1 = true) :
    (feeds.map (fun f => f.url.getD (""))).Nodup := by
  by_cases h0 : feeds = []
  · subst h0; simp
  · unfold validate_feeds at hacc
    rw [if_neg h0] at hacc
    cases hfe : feedFieldError feeds with
    | some msg => rw [hfe] at hacc; simp at hacc
    | none =>
      rw [hfe] at hacc
      by_cases hnd : (feeds.map (fun f => f.url.getD (""))).Nodup
      · exact hnd
      · rw [if_neg hnd] at hacc
        simp at hacc

/-- Witness for C10 (amended): the accepted case-variant list indeed has
exactly distinct url strings. -/
theorem c10_amended_witness : (dupCaseFeeds.map (fun f => f.url.getD (""))).Nodup :=
  c10_amended dupCaseFeeds (by decide)

/-- Counterexample for C6: the search-feed fetcher has no ISO-8601 parse
step — on an entry whose date string parses only as ISO-8601, it falls
back to "now" instead of the parsed time the four-step chain yields. -/
theorem c6_counterexample :
    resolveGoogleDate isoOnlyEntry 5000 ≠ specDateChain isoOnlyEntry 5000 ∧
    resolveGoogleDate isoOnlyEntry 5000 = 5000 ∧
    specDateChain isoOnlyEntry 5000 = 1000 := by
  refine ⟨by decide, by decide, by decide⟩

/-- Claim C6 (amended): the RSS fetcher resolves dates by the full
four-step chain (struct, RFC-822, ISO-8601, now); the search-feed fetcher
applies the chain with the ISO-8601 step omitted (an RFC-822 failure falls
directly back to "now"); and in both fetchers an entry with an unparsable
date resolves to "now" without failing and — its url being fresh — is
still appended to the output, never dropped. -/
theorem c6_amended :
    (∀ (e : Entry) (now : DT), resolveRssDate e now = specDateChain e now) ∧
    (∀ (e : Entry) (now : DT) (p : PubStr), e.published_parsed = none →
      e.published = some p → p.rfc822 = none → resolveGoogleDate e now = now) ∧
    (∀ (h : String → String) (kw : String) (now : DT) (days : Int)
       (st : List Article × List String) (e : Entry) (es : List Entry),
      0 ≤ days → e.link.getD ("") ∉ st.2 → e.published_parsed = none →
      (∀ p : PubStr, e.published = some p → p.rfc822 = none ∧ p.iso = none) →
      runEntries (mkGoogleArticle h kw) resolveGoogleDate now days (e :: es) st =
        runEntries (mkGoogleArticle h kw) resolveGoogleDate now days es
          (st.1 ++ [mkGoogleArticle h kw e now], (e.link.getD ("")) :: st.2) ∧
      runEntries (mkRssArticle h kw) resolveRssDate now days (e :: es) st =
        runEntries (mkRssArticle h kw) resolveRssDate now days es
          (st.1 ++ [mkRssArticle h kw e now], (e.link.getD ("")) :: st.2)) := by
  refine ⟨?_, ?_, ?_⟩
  · intro e now
    rcases e with ⟨l, pp, pub, t, sm, sr⟩
    cases pp with
    | some d => rfl
    | none =>
      cases pub with
      | none => rfl
      | some p =>
        rcases p with ⟨r8, iso⟩
        cases r8 with
        | some d => rfl
        | none => cases iso with
          | some d => rfl
          | none => rfl
  · intro e now p hpp hpub hr
    unfold resolveGoogleDate
    rw [hpp, hpub]
    show p.rfc822.getD now = now
    rw [hr]; rfl
  · intro h kw now days st e es hd hseen hpp hpub
    have hg : resolveGoogleDate e now = now := by
      unfold resolveGoogleDate
      rw [hpp]
      cases hp : e.published with
      | none => rfl
      | some p =>
        show p.rfc822.getD now = now
        rw [(hpub p hp).1]; rfl
    have hr : resolveRssDate e now = now := by
      unfold resolveRssDate
      rw [hpp]
      cases hp : e.published with
      | none => rfl
      | some p =>
        show (match p.rfc822 with
          | some d => d
          | none => p.iso.getD now) = now
        rw [(hpub p hp).1, (hpub p hp).2]; rfl
    have hdb : daysBetween now now = 0 := by
      unfold daysBetween; rw [sub_self]; exact Int.zero_fdiv 86400
    have hnotlt : ¬ days < daysBetween now now := by
      rw [hdb]; exact not_lt.mpr hd
    constructor
    · show (if e.link.getD ("") ∈ st.2 then
          runEntries (mkGoogleArticle h kw) resolveGoogleDate now days es st
        else if days < daysBetween now (resolveGoogleDate e now) then
          runEntries (mkGoogleArticle h kw) resolveGoogleDate now days es st
        else runEntries (mkGoogleArticle h kw) resolveGoogleDate now days es
          (st.1 ++ [mkGoogleArticle h kw e (resolveGoogleDate e now)],
           (e.link.getD ("")) :: st.2)) = _
      rw [if_neg hseen, hg, if_neg hnotlt]
    · show (if e.link.getD ("") ∈ st.2 then
          runEntries (mkRssArticle h kw) resolveRssDate now days es st
        else if days < daysBetween now (resolveRssDate e now) then
          runEntries (mkRssArticle h kw) resolveRssDate now days es st
        else runEntries (mkRssArticle h kw) resolveRssDate now days es
          (st.1 ++ [mkRssArticle h kw e (resolveRssDate e now)],
           (e.link.getD ("")) :: st.2)) = _
      rw [if_neg hseen, hr, if_neg hnotlt]

/-- Witness for C6 (amended): the search-feed resolver at a concrete
ISO-only entry falls back to "now". -/
theorem c6_amended_witness : resolveGoogleDate isoOnlyEntry 5000 = 5000 :=
  c6_amended.2.1 isoOnlyEntry 5000 { rfc822 := none, iso := some 1000 } rfl rfl rfl

/-- Counterexample for C8: assembling the selection `["b", "a"]` against a
pool where "a" is the newer article yields `[artB, artA]`, which is not
ordered by `published_datetime` descending — the assembly keeps the
id-list order and never re-sorts. -/
theorem c8_counterexample :
    select_articles ["b", "a"] [artA, artB] = [artB, artA] ∧
    isSortedDesc (select_articles ["b", "a"] [artA, artB]) = false := by
  constructor
  · decide
  · decide

/-- Claim C8 (amended): publication assembly resolves the selected ids
against the pool — absent ids are silently dropped (removing them from
the id list changes nothing) and every assembled article comes from the
pool — and the assembled list (hence the rendered newsletter, whose
blocks appear in list order between header and footer) follows the order
of the selected-id list, not `published_datetime` descending. -/
theorem c8_amended (ids : List String) (pool : List Article) :
    ((select_articles ids pool).map (fun a => a.article_id) =
      ids.filter (fun aid => pool.any (fun a => a.article_id == aid))) ∧
    (∀ a ∈ select_articles ids pool, a ∈ pool) ∧
    (∀ aid : String, (∀ a ∈ pool, a.article_id ≠ aid) →
      select_articles (ids.filter (fun x => x ≠ aid)) pool =
        select_articles ids pool) ∧
    (∀ (showD : DT → String) (t an ft fu fud lu gd : String),
      format_html_newsletter showD (select_articles ids pool) t an ft fu fud lu gd =
        newsletterHead t an lu gd ++
        concatAll ((select_articles ids pool).map (articleBlock showD)) ++
        newsletterFoot ft fu fud) := by
  refine ⟨?_, ?_, ?_, ?_⟩
  · induction ids with
    | nil => rfl
    | cons x ids ih =>
      show ((x :: ids).filterMap (poolLookup pool)).map (fun a => a.article_id) = _
      rw [List.filterMap_cons]
      cases hl : poolLookup pool x with
      | none =>
        have hl2 : pool.reverse.find? (fun b => b.article_id == x) = none := hl
        have hanyF : pool.any (fun a => a.article_id == x) = false := by
          rw [List.any_eq_false]
          intro a ha
          exact List.find?_eq_none.mp hl2 a (List.mem_reverse.mpr ha)
        have hfil : (x :: ids).filter (fun aid => pool.any (fun a => a.article_id == aid)) =
            ids.filter (fun aid => pool.any (fun a => a.article_id == aid)) := by
          simp [List.filter_cons, hanyF]
        rw [hfil]
        exact ih
      | some a =>
        have hl2 : pool.reverse.find? (fun b => b.article_id == x) = some a := hl
        have hpa : (a.article_id == x) = true :=
          List.find?_some (p := fun b : Article => b.article_id == x) hl2
        have hanyT : pool.any (fun a => a.article_id == x) = true := by
          rw [List.any_eq_true]
          exact ⟨a, List.mem_reverse.mp (List.mem_of_find?_eq_some hl2), hpa⟩
        have hfil : (x :: ids).filter (fun aid => pool.any (fun a => a.article_id == aid)) =
            x :: ids.filter (fun aid => pool.any (fun a => a.article_id == aid)) := by
          simp [List.filter_cons, hanyT]
        rw [hfil]
        show a.article_id :: (select_articles ids pool).map (fun a => a.article_id) =
          x :: ids.filter (fun aid => pool.any (fun a => a.article_id == aid))
        rw [ih, beq_iff_eq.mp hpa]
  · intro a ha
    have := List.mem_filterMap.mp ha
    rcases this with ⟨aid, _, hsome⟩
    exact List.mem_reverse.mp (List.mem_of_find?_eq_some hsome)
  · intro aid hnone
    have hlk : poolLookup pool aid = none := by
      apply List.find?_eq_none.mpr
      intro a ha
      simp only [beq_iff_eq]
      exact hnone a (List.mem_reverse.mp ha)
    induction ids with
    | nil => rfl
    | cons x ids ih =>
      by_cases hx : x = aid
      · subst hx
        have h1 : (x :: ids).filter (fun y => y ≠ x) = ids.filter (fun y => y ≠ x) := by
          simp [List.filter_cons]
        rw [h1]
        show select_articles (ids.filter (fun y => y ≠ x)) pool =
          (x :: ids).filterMap (poolLookup pool)
        rw [List.filterMap_cons, hlk]
        exact ih
      · have h1 : (x :: ids).filter (fun y => y ≠ aid) =
            x :: ids.filter (fun y => y ≠ aid) := by
          simp [List.filter_cons, hx]
        rw [h1]
        show (x :: ids.filter (fun y => y ≠ aid)).filterMap (poolLookup pool) =
          (x :: ids).filterMap (poolLookup pool)
        rw [List.filterMap_cons, List.filterMap_cons]
        cases poolLookup pool x with
        | none => exact ih
        | some a => exact congrArg (fun l => a :: l) ih
  · intro showD t an ft fu fud lu gd
    unfold format_html_newsletter
    rw [foldl_append_concatAll]

/-- Witness for C8 (amended): dropping an id absent from the pool does not
change the assembled list. -/
theorem c8_amended_witness :
    select_articles ((["zz", "b", "a"]).filter (fun x => x ≠ "zz")) [artA, artB] =
      select_articles ["zz", "b", "a"] [artA, artB] :=
  (c8_amended ["zz", "b", "a"] [artA, artB]).2.2.1 "zz" (by decide)

/-- Claim C4: for every datastore, email, tenant and capability (with
non-empty email and tenant id, the guarded path), `has_permission` grants
"view" exactly when the user's resolved permission list for that tenant is
non-empty, and grants any other capability name exactly when it is a
member of the resolved permission list. -/
theorem c4_has_permission (loadUA : String → Option (List UserRecord))
    (email customerId cap : String) (he : email ≠ "") (hc : customerId ≠ "") :
    (has_permission loadUA email customerId "view" = true ↔
      resolvedPermList loadUA email customerId ≠ []) ∧
    (cap ≠ "view" →
      (has_permission loadUA email customerId cap = true ↔
        cap ∈ resolvedPermList loadUA email customerId)) := by
  have hguard : ¬ (email = "" ∨ customerId = "") := by
    rintro (h | h)
    · exact he h
    · exact hc h
  cases hua : loadUA customerId with
  | none =>
    have hperm : get_user_permissions loadUA email customerId = none := by
      unfold get_user_permissions
      rw [if_neg hguard, hua]
    have h3 : resolvedPermList loadUA email customerId = [] := by
      unfold resolvedPermList
      rw [hua]
    constructor
    · unfold has_permission
      rw [hperm, h3]
      simp
    · intro hcv
      unfold has_permission
      rw [hperm, h3]
      simp [beq_eq_false_iff_ne.mpr hcv]
  | some users =>
    cases hfu : findUser users email with
    | none =>
      have hperm : get_user_permissions loadUA email customerId = none := by
        unfold get_user_permissions
        rw [if_neg hguard, hua]
        show (match findUser users email with
          | none => none
          | some u =>
            some { tier := u.tier.getD ("basic"),
                   role := u.role.getD ("viewer"),
                   permissions := u.permissions.getD (["view"]) }) = (none : Option PermInfo)
        rw [hfu]
      have h3 : resolvedPermList loadUA email customerId = [] := by
        unfold resolvedPermList
        rw [hua]
        show (match findUser users email with
          | none => []
          | some u => u.permissions.getD (["view"])) = ([] : List String)
        rw [hfu]
      constructor
      · unfold has_permission
        rw [hperm, h3]
        simp
      · intro hcv
        unfold has_permission
        rw [hperm, h3]
        simp [beq_eq_false_iff_ne.mpr hcv]
    | some u =>
      have hperm : get_user_permissions loadUA email customerId =
          some { tier := u.tier.getD ("basic"),
                 role := u.role.getD ("viewer"),
                 permissions := u.permissions.getD (["view"]) } := by
        unfold get_user_permissions
        rw [if_neg hguard, hua]
        show (match findUser users email with
          | none => none
          | some u =>
            some { tier := u.tier.getD ("basic"),
                   role := u.role.getD ("viewer"),
                   permissions := u.permissions.getD (["view"]) }) =
          (some { tier := u.tier.getD ("basic"),
                  role := u.role.getD ("viewer"),
                  permissions := u.permissions.getD (["view"]) } : Option PermInfo)
        rw [hfu]
      have h3 : resolvedPermList loadUA email customerId =
          u.permissions.getD (["view"]) := by
        unfold resolvedPermList
        rw [hua]
        show (match findUser users email with
          | none => []
          | some u => u.permissions.getD (["view"])) = u.permissions.getD (["view"])
        rw [hfu]
      constructor
      · unfold has_permission
        rw [hperm, h3]
        simp [List.length_pos]
      · intro hcv
        unfold has_permission
        rw [hperm, h3]
        simp [beq_eq_false_iff_ne.mpr hcv]

/-- Witness for C4: the demo user holds "generate" on tenant "acme". -/
theorem c4_has_permission_witness :
    has_permission demoLoadUA "a@x.com" "acme" "generate" = true :=
  ((c4_has_permission demoLoadUA "a@x.com" "acme" "generate"
    (by decide) (by decide)).2 (by decide)).mpr (by decide)

/-- Claim C5: with non-empty credentials supplied, `authenticate_user`
rejects with the invalid-credentials message when no tenant membership
matches the email or no stored password equals the supplied password;
rejects with the account-inactive message when the matched record's status
is not Active (after trim/lowercase normalisation); rejects with the
account-expired message when `valid_until` is set, parses under the
three-format chain and is a past date; and treats an unparsable
`valid_until` as no expiry, authenticating successfully. -/
theorem c5_authenticate (parse : DateFmt → String → Option Int) (today : Int)
    (files : List (String × List UserRecord))
    (brandingOf : String → Option (Option String)) (email pw : String)
    (he : email ≠ "") (hp : pw ≠ "") :
    (get_user_newsletters files brandingOf email = [] →
      authenticate_user parse today files brandingOf email pw =
        { ok := false, error := "Invalid email or password.", user := none }) ∧
    ((∀ r ∈ get_user_newsletters files brandingOf email, r.password ≠ pw) →
      authenticate_user parse today files brandingOf email pw =
        { ok := false, error := "Invalid email or password.", user := none }) ∧
    (∀ r : NewsletterAccess,
      (get_user_newsletters files brandingOf email).find?
          (fun r => r.password == pw) = some r →
      isActiveStatus r.status = false →
      authenticate_user parse today files brandingOf email pw =
        { ok := false, error := "Your account is not active. Contact administrator.",
          user := none }) ∧
    (∀ r : NewsletterAccess,
      (get_user_newsletters files brandingOf email).find?
          (fun r => r.password == pw) = some r →
      isActiveStatus r.status = true →
      pyStrip r.valid_until ≠ "" →
      ∀ d : Int, parseValidUntil parse (pyStrip r.valid_until) = some d →
      d < today →
      authenticate_user parse today files brandingOf email pw =
        { ok := false, error := "Your account has expired. Contact administrator.",
          user := none }) ∧
    (∀ r : NewsletterAccess,
      (get_user_newsletters files brandingOf email).find?
          (fun r => r.password == pw) = some r →
      isActiveStatus r.status = true →
      pyStrip r.valid_until ≠ "" →
      parseValidUntil parse (pyStrip r.valid_until) = none →
      authenticate_user parse today files brandingOf email pw =
        { ok := true, error := "", user := some r }) := by
  have hguard : ¬ (email = "" ∨ pw = "") := by
    rintro (h | h)
    · exact he h
    · exact hp h
  refine ⟨?_, ?_, ?_, ?_, ?_⟩
  · intro hns
    unfold authenticate_user
    rw [if_neg hguard]
    rw [if_pos hns]
  · intro hb
    have hfind : (get_user_newsletters files brandingOf email).find?
        (fun r => r.password == pw) = none := by
      apply List.find?_eq_none.mpr
      intro r hr
      simp only [beq_iff_eq]
      intro hEq
      exact hb r hr hEq
    unfold authenticate_user
    rw [if_neg hguard]
    by_cases hns : get_user_newsletters files brandingOf email = []
    · rw [if_pos hns]
    · rw [if_neg hns, hfind]
  · intro r hfind hst
    have hns : get_user_newsletters files brandingOf email ≠ [] := by
      intro h
      rw [h] at hfind
      exact Option.noConfusion hfind
    have hcond : ¬ isActiveStatus r.status = true := by
      rw [hst]; simp
    unfold authenticate_user
    rw [if_neg hguard]
    dsimp only
    rw [if_neg hns, hfind]
    dsimp only
    rw [if_pos hcond]
  · intro r hfind hst hv d hpd hdt
    have hns : get_user_newsletters files brandingOf email ≠ [] := by
      intro h
      rw [h] at hfind
      exact Option.noConfusion hfind
    have hcond : ¬ ¬ isActiveStatus r.status = true := by
      rw [hst]; simp
    unfold authenticate_user
    rw [if_neg hguard]
    dsimp only
    rw [if_neg hns, hfind]
    dsimp only
    rw [if_neg hcond]
    rw [if_pos hv, hpd]
    show (if d < today then
        ({ ok := false, error := "Your account has expired. Contact administrator.",
           user := none } : AuthResult)
      else { ok := true, error := "", user := some r }) = _
    rw [if_pos hdt]
  · intro r hfind hst hv hpn
    have hns : get_user_newsletters files brandingOf email ≠ [] := by
      intro h
      rw [h] at hfind
      exact Option.noConfusion hfind
    have hcond : ¬ ¬ isActiveStatus r.status = true := by
      rw [hst]; simp
    unfold authenticate_user
    rw [if_neg hguard]
    dsimp only
    rw [if_neg hns, hfind]
    dsimp only
    rw [if_neg hcond]
    rw [if_pos hv, hpn]

/-- Witness for C5: the demo user with an unparsable expiry authenticates
successfully. -/
theorem c5_authenticate_witness :
    authenticate_user demoParse 0 demoFiles demoBranding "a@x.com" "pw" =
      { ok := true, error := "",
        user := some (mkAccess "acme" "Newsletter" demoUser) } :=
  (c5_authenticate demoParse 0 demoFiles demoBranding "a@x.com" "pw"
      (by decide) (by decide)).2.2.2.2
    (mkAccess "acme" "Newsletter" demoUser) (by decide) (by decide) (by decide) rfl

/-- One unfolding step of the shared entry loop. -/
theorem runEntries_cons (mk : Entry → DT → Article) (resolve : Entry → DT → DT)
    (now : DT) (days : Int) (e : Entry) (es : List Entry)
    (st : List Article × List String) :
    runEntries mk resolve now days (e :: es) st =
      if e.link.getD ("") ∈ st.2 then runEntries mk resolve now days es st
      else if days < daysBetween now (resolve e now) then
        runEntries mk resolve now days es st
      else runEntries mk resolve now days es
        (st.1 ++ [mk e (resolve e now)], (e.link.getD ("")) :: st.2) := rfl

/-- The entry loop only ever appends articles that pass the recency
filter. -/
theorem runEntries_recency (mk : Entry → DT → Article) (resolve : Entry → DT → DT)
    (now : DT) (days : Int) (hmk : ∀ e p, (mk e p).published_dt = p) :
    ∀ (es : List Entry) (st : List Article × List String),
      (∀ a ∈ st.1, daysBetween now a.published_dt ≤ days) →
      ∀ a ∈ (runEntries mk resolve now days es st).1,
        daysBetween now a.published_dt ≤ days := by
  intro es
  induction es with
  | nil => intro st hst; exact hst
  | cons e es ih =>
    intro st hst
    rw [runEntries_cons]
    by_cases h1 : e.link.getD ("") ∈ st.2
    · rw [if_pos h1]; exact ih st hst
    · rw [if_neg h1]
      by_cases h2 : days < daysBetween now (resolve e now)
      · rw [if_pos h2]; exact ih st hst
      · rw [if_neg h2]
        apply ih
        intro a ha
        rcases List.mem_append.mp ha with hin | hnew
        · exact hst a hin
        · have : a = mk e (resolve e now) := List.mem_singleton.mp hnew
          rw [this, hmk]
          exact not_lt.mp h2

/-- The Google keyword loop preserves the recency bound. -/
theorem googleKeywordLoop_recency (h : String → String)
    (fetch : String → Option (List Entry)) (now : DT) (days : Int) (per : Nat) :
    ∀ (ks : List String) (st : List Article × List String),
      (∀ a ∈ st.1, daysBetween now a.published_dt ≤ days) →
      ∀ a ∈ (googleKeywordLoop h fetch now days per ks st).1,
        daysBetween now a.published_dt ≤ days := by
  intro ks
  induction ks with
  | nil => intro st hst; exact hst
  | cons k ks ih =>
    intro st hst
    show ∀ a ∈ (googleKeywordLoop h fetch now days per (k :: ks) st).1, _
    cases hf : fetch k with
    | none =>
      have hstep : googleKeywordLoop h fetch now days per (k :: ks) st =
          googleKeywordLoop h fetch now days per ks st := by
        simp only [googleKeywordLoop, hf]
      rw [hstep]
      exact ih st hst
    | some entries =>
      have hstep : googleKeywordLoop h fetch now days per (k :: ks) st =
          googleKeywordLoop h fetch now days per ks
            (runEntries (mkGoogleArticle h k) resolveGoogleDate now days
              (entries.take per) st) := by
        simp only [googleKeywordLoop, hf]
      rw [hstep]
      exact ih _ (runEntries_recency (mkGoogleArticle h k) resolveGoogleDate now days
        (fun _ _ => rfl) (entries.take per) st hst)

/-- The RSS feed loop preserves the recency bound. -/
theorem rssFeedLoop_recency (h : String → String)
    (fetch : String → Option RssFeed) (now : DT) (days : Int) :
    ∀ (us : List String) (st : List Article × List String),
      (∀ a ∈ st.1, daysBetween now a.published_dt ≤ days) →
      ∀ a ∈ (rssFeedLoop h fetch now days us st).1,
        daysBetween now a.published_dt ≤ days := by
  intro us
  induction us with
  | nil => intro st hst; exact hst
  | cons u us ih =>
    intro st hst
    cases hf : fetch u with
    | none =>
      have hstep : rssFeedLoop h fetch now days (u :: us) st =
          rssFeedLoop h fetch now days us st := by
        simp only [rssFeedLoop, hf]
      rw [hstep]
      exact ih st hst
    | some fd =>
      have hstep : rssFeedLoop h fetch now days (u :: us) st =
          rssFeedLoop h fetch now days us
            (runEntries (mkRssArticle h (fd.ftitle.getD ("RSS Feed"))) resolveRssDate
              now days fd.entries st) := by
        simp only [rssFeedLoop, hf]
      rw [hstep]
      exact ih _ (runEntries_recency _ resolveRssDate now days
        (fun _ _ => rfl) fd.entries st hst)

/-- Membership transfers across the newest-first sort. -/
theorem mem_sortArts (a : Article) (l : List Article) : a ∈ sortArts l ↔ a ∈ l :=
  (List.perm_insertionSort (fun a b => b.published_dt ≤ a.published_dt) l).mem_iff

/-- Counterexample for C2: with the 7-day window, an entry whose resolved
published timestamp is 608400 seconds (7 days and 1 hour) before "now" —
strictly more than 7 days — still appears in the search-feed fetcher
output, because `timedelta.days` floors 7 days 1 hour to 7. -/
theorem c2_counterexample :
    (608400 : Int) - 0 > 7 * 86400 ∧
    timePeriodDays "Last 7 days" = 7 ∧
    mkGoogleArticle demoHash "k" oldEntry 0 ∈
      find_news_google demoHash demoFetchG ["k"] "Last 7 days" 50 608400 := by
  refine ⟨by decide, by decide, by decide⟩

/-- Claim C2 (amended): the three window strings resolve to 7, 14 and 30
days, and each fetcher excludes exactly the entries whose floored
whole-day age `(now - published).days` exceeds the window — every output
article satisfies `daysBetween now published ≤ window_days` (so an entry
between `window_days` and `window_days + 1` days old is retained). -/
theorem c2_amended :
    (timePeriodDays "Last 7 days" = 7 ∧ timePeriodDays "Last 14 days" = 14 ∧
      timePeriodDays "Last 30 days" = 30) ∧
    (∀ (h : String → String) (fetch : String → Option (List Entry))
       (keywords : List String) (tp : String) (maxResults : Nat) (now : DT),
      ∀ a ∈ find_news_google h fetch keywords tp maxResults now,
        daysBetween now a.published_dt ≤ (timePeriodDays tp : Int)) ∧
    (∀ (h : String → String) (fetch : String → Option RssFeed)
       (feedUrls : List String) (tp : String) (now : DT),
      ∀ a ∈ find_news_rss h fetch feedUrls tp now,
        daysBetween now a.published_dt ≤ (timePeriodDays tp : Int)) := by
  refine ⟨⟨by decide, by decide, by decide⟩, ?_, ?_⟩
  · intro h fetch keywords tp maxResults now a ha
    unfold find_news_google at ha
    by_cases hk : keywords = []
    · rw [if_pos hk] at ha
      exact absurd ha (List.not_mem_nil a)
    · rw [if_neg hk] at ha
      have ha2 : a ∈ sortArts (googleKeywordLoop h fetch now (timePeriodDays tp)
          (maxResults / keywords.length) keywords ([], [])).1 :=
        List.take_subset maxResults _ ha
      have ha3 := (mem_sortArts a _).mp ha2
      exact googleKeywordLoop_recency h fetch now (timePeriodDays tp)
        (maxResults / keywords.length) keywords ([], [])
        (fun a h => absurd h (List.not_mem_nil a)) a ha3
  · intro h fetch feedUrls tp now a ha
    unfold find_news_rss at ha
    by_cases hu : feedUrls = []
    · rw [if_pos hu] at ha
      exact absurd ha (List.not_mem_nil a)
    · rw [if_neg hu] at ha
      have ha3 := (mem_sortArts a _).mp ha
      exact rssFeedLoop_recency h fetch now (timePeriodDays tp) feedUrls ([], [])
        (fun a h => absurd h (List.not_mem_nil a)) a ha3

/-- Witness for C2 (amended): the kept 7-day-1-hour-old article satisfies
the floored-day bound. -/
theorem c2_amended_witness :
    daysBetween 608400 (mkGoogleArticle demoHash "k" oldEntry 0).published_dt ≤
      (timePeriodDays "Last 7 days" : Int) :=
  c2_amended.2.1 demoHash demoFetchG ["k"] "Last 7 days" 50 608400
    (mkGoogleArticle demoHash "k" oldEntry 0) (by decide)

/-- Appending a fresh-url article preserves the seen-set/url-list
correspondence and url distinctness. -/
theorem seenInv_snoc (st : List Article × List String) (a : Article)
    (hiff : ∀ u, u ∈ st.2 ↔ u ∈ st.1.map (fun x => x.url))
    (hnd : (st.1.map (fun x => x.url)).Nodup)
    (hnew : a.url ∉ st.2) :
    (∀ u, u ∈ (a.url :: st.2) ↔ u ∈ (st.1 ++ [a]).map (fun x => x.url)) ∧
    ((st.1 ++ [a]).map (fun x => x.url)).Nodup := by
  have hnotmap : a.url ∉ st.1.map (fun x => x.url) :=
    fun hmem => hnew ((hiff a.url).mpr hmem)
  constructor
  · intro u
    rw [List.map_append]
    simp only [List.mem_cons, List.mem_append, List.map_cons, List.map_nil,
      List.mem_singleton]
    rw [hiff u]
    tauto
  · rw [List.map_append]
    apply List.nodup_append.mpr
    simp only [List.map_cons, List.map_nil]
    refine ⟨hnd, by simp, ?_⟩
    rw [List.disjoint_singleton]
    exact hnotmap

/-- The entry loop keeps its seen set equal to the url set of its output
and its output urls pairwise distinct. -/
theorem runEntries_inv (mk : Entry → DT → Article) (resolve : Entry → DT → DT)
    (now : DT) (days : Int) (hmk : ∀ e p, (mk e p).url = e.link.getD ("")) :
    ∀ (es : List Entry) (st : List Article × List String),
      (∀ u, u ∈ st.2 ↔ u ∈ st.1.map (fun x => x.url)) →
      (st.1.map (fun x => x.url)).Nodup →
      (∀ u, u ∈ (runEntries mk resolve now days es st).2 ↔
        u ∈ (runEntries mk resolve now days es st).1.map (fun x => x.url)) ∧
      ((runEntries mk resolve now days es st).1.map (fun x => x.url)).Nodup := by
  intro es
  induction es with
  | nil => intro st hiff hnd; exact ⟨hiff, hnd⟩
  | cons e es ih =>
    intro st hiff hnd
    rw [runEntries_cons]
    by_cases h1 : e.link.getD ("") ∈ st.2
    · rw [if_pos h1]; exact ih st hiff hnd
    · rw [if_neg h1]
      by_cases h2 : days < daysBetween now (resolve e now)
      · rw [if_pos h2]; exact ih st hiff hnd
      · rw [if_neg h2]
        have h1m : (mk e (resolve e now)).url ∉ st.2 := by
          rw [hmk]; exact h1
        have hsnoc := seenInv_snoc st (mk e (resolve e now)) hiff hnd h1m
        have hrw : (e.link.getD ("")) = (mk e (resolve e now)).url := (hmk e _).symm
        rw [hrw]
        exact ih _ hsnoc.1 hsnoc.2

/-- The Google keyword loop preserves the seen/url invariant. -/
theorem googleKeywordLoop_inv (h : String → String)
    (fetch : String → Option (List Entry)) (now : DT) (days : Int) (per : Nat) :
    ∀ (ks : List String) (st : List Article × List String),
      (∀ u, u ∈ st.2 ↔ u ∈ st.1.map (fun x => x.url)) →
      (st.1.map (fun x => x.url)).Nodup →
      (∀ u, u ∈ (googleKeywordLoop h fetch now days per ks st).2 ↔
        u ∈ (googleKeywordLoop h fetch now days per ks st).1.map (fun x => x.url)) ∧
      ((googleKeywordLoop h fetch now days per ks st).1.map (fun x => x.url)).Nodup := by
  intro ks
  induction ks with
  | nil => intro st hiff hnd; exact ⟨hiff, hnd⟩
  | cons k ks ih =>
    intro st hiff hnd
    cases hf : fetch k with
    | none =>
      have hstep : googleKeywordLoop h fetch now days per (k :: ks) st =
          googleKeywordLoop h fetch now days per ks st := by
        simp only [googleKeywordLoop, hf]
      rw [hstep]
      exact ih st hiff hnd
    | some entries =>
      have hstep : googleKeywordLoop h fetch now days per (k :: ks) st =
          googleKeywordLoop h fetch now days per ks
            (runEntries (mkGoogleArticle h k) resolveGoogleDate now days
              (entries.take per) st) := by
        simp only [googleKeywordLoop, hf]
      rw [hstep]
      have hrun := runEntries_inv (mkGoogleArticle h k) resolveGoogleDate now days
        (fun _ _ => rfl) (entries.take per) st hiff hnd
      exact ih _ hrun.1 hrun.2

/-- The urls of `find_news_google`'s output are pairwise distinct. -/
theorem find_news_google_url_nodup (h : String → String)
    (fetch : String → Option (List Entry)) (keywords : List String)
    (tp : String) (maxResults : Nat) (now : DT) :
    ((find_news_google h fetch keywords tp maxResults now).map
      (fun x => x.url)).Nodup := by
  unfold find_news_google
  by_cases hk : keywords = []
  · rw [if_pos hk]; simp
  · rw [if_neg hk]
    have hloop := googleKeywordLoop_inv h fetch now (timePeriodDays tp)
      (maxResults / keywords.length) keywords ([], [])
      (fun u => Iff.rfl) List.nodup_nil
    have hperm : List.Perm (sortArts (googleKeywordLoop h fetch now
        (timePeriodDays tp) (maxResults / keywords.length) keywords ([], [])).1)
        (googleKeywordLoop h fetch now (timePeriodDays tp)
          (maxResults / keywords.length) keywords ([], [])).1 :=
      List.perm_insertionSort _ _
    have hndsort := ((hperm.map (fun x => x.url)).nodup_iff).mpr hloop.2
    show (((sortArts (googleKeywordLoop h fetch now (timePeriodDays tp)
        (maxResults / keywords.length) keywords ([], [])).1).take maxResults).map
      (fun x => x.url)).Nodup
    exact hndsort.sublist ((List.take_sublist maxResults _).map (fun x : Article => x.url))

/-- One unfolding step of the background RSS merge. -/
theorem mergeRss_cons (a : Article) (rest : List Article)
    (st : List Article × List String) :
    mergeRssArticles (a :: rest) st =
      if a.url ∈ st.2 then mergeRssArticles rest st
      else mergeRssArticles rest (st.1 ++ [a], a.url :: st.2) := rfl

/-- The merge step preserves the seen/url invariant. -/
theorem mergeRss_inv :
    ∀ (rss : List Article) (st : List Article × List String),
      (∀ u, u ∈ st.2 ↔ u ∈ st.1.map (fun x => x.url)) →
      (st.1.map (fun x => x.url)).Nodup →
      (∀ u, u ∈ (mergeRssArticles rss st).2 ↔
        u ∈ (mergeRssArticles rss st).1.map (fun x => x.url)) ∧
      ((mergeRssArticles rss st).1.map (fun x => x.url)).Nodup := by
  intro rss
  induction rss with
  | nil => intro st hiff hnd; exact ⟨hiff, hnd⟩
  | cons a rest ih =>
    intro st hiff hnd
    rw [mergeRss_cons]
    by_cases h : a.url ∈ st.2
    · rw [if_pos h]; exact ih st hiff hnd
    · rw [if_neg h]
      have hsnoc := seenInv_snoc st a hiff hnd h
      exact ih _ hsnoc.1 hsnoc.2

/-- The merge step only ever appends to the article list. -/
theorem mergeRss_keeps :
    ∀ (rss : List Article) (st : List Article × List String),
      ∃ t, (mergeRssArticles rss st).1 = st.1 ++ t := by
  intro rss
  induction rss with
  | nil => intro st; exact ⟨[], (List.append_nil st.1).symm⟩
  | cons a rest ih =>
    intro st
    rw [mergeRss_cons]
    by_cases h : a.url ∈ st.2
    · rw [if_pos h]; exact ih st
    · rw [if_neg h]
      rcases ih (st.1 ++ [a], a.url :: st.2) with ⟨t, ht⟩
      refine ⟨[a] ++ t, ?_⟩
      rw [ht, List.append_assoc]

/-- Every merged RSS article's url is represented in the merge result. -/
theorem mergeRss_covers :
    ∀ (rss : List Article) (st : List Article × List String),
      (∀ u, u ∈ st.2 ↔ u ∈ st.1.map (fun x => x.url)) →
      (st.1.map (fun x => x.url)).Nodup →
      ∀ a ∈ rss, ∃ b ∈ (mergeRssArticles rss st).1, b.url = a.url := by
  intro rss
  induction rss with
  | nil => intro st _ _ a ha; exact absurd ha (List.not_mem_nil a)
  | cons c rest ih =>
    intro st hiff hnd a ha
    rw [mergeRss_cons]
    by_cases h : c.url ∈ st.2
    · rw [if_pos h]
      rcases List.mem_cons.mp ha with heq | ha2
      · rcases List.mem_map.mp ((hiff c.url).mp h) with ⟨b, hb, hbu⟩
        rcases mergeRss_keeps rest st with ⟨t, ht⟩
        refine ⟨b, ?_, by rw [hbu, heq]⟩
        rw [ht]
        exact List.mem_append_left t hb
      · exact ih st hiff hnd a ha2
    · rw [if_neg h]
      have hsnoc := seenInv_snoc st c hiff hnd h
      rcases List.mem_cons.mp ha with heq | ha2
      · rcases mergeRss_keeps rest (st.1 ++ [c], c.url :: st.2) with ⟨t, ht⟩
        refine ⟨c, ?_, by rw [heq]⟩
        rw [ht]
        exact List.mem_append_left t
          (List.mem_append_right st.1 (List.mem_singleton.mpr rfl))
      · exact ih (st.1 ++ [c], c.url :: st.2) hsnoc.1 hsnoc.2 a ha2

/-- The residual dedup pass is the identity on a list whose urls are
already distinct and unseen. -/
theorem dedupByUrl_eq_self :
    ∀ (l : List Article) (seen : List String),
      (l.map (fun x => x.url)).Nodup → (∀ a ∈ l, a.url ∉ seen) →
      dedupByUrl l seen = l := by
  intro l
  induction l with
  | nil => intro seen _ _; rfl
  | cons a rest ih =>
    intro seen hnd hdisj
    have hndc : a.url ∉ rest.map (fun x => x.url) ∧
        (rest.map (fun x => x.url)).Nodup := by
      rw [List.map_cons] at hnd
      exact List.nodup_cons.mp hnd
    have h1 : a.url ∉ seen := hdisj a (List.mem_cons_self a rest)
    show (if a.url ∈ seen then dedupByUrl rest seen
      else a :: dedupByUrl rest (a.url :: seen)) = a :: rest
    rw [if_neg h1]
    congr 1
    apply ih
    · exact hndc.2
    · intro b hb hbm
      rcases List.mem_cons.mp hbm with heq | hmem
      · exact hndc.1 (List.mem_map.mpr ⟨b, hb, heq⟩)
      · exact hdisj b (List.mem_cons_of_mem a hb) hmem

/-- Claim C1: across one discovery run, `find_news_background` returns
articles with pairwise-distinct urls; every search-feed (Google) article
survives into the combined output; every RSS article's url is represented
by exactly one output article; and the unique output article carrying a
Google article's url is that Google article itself — so when both
fetchers produced a url, the Google copy is the one retained. -/
theorem c1_dedup_invariant
    (h : String → String) (fetchG : String → Option (List Entry))
    (fetchR : String → Option RssFeed) (keywords feedUrls : List String)
    (tp : String) (maxResults : Nat) (now : DT) :
    ((find_news_background h fetchG fetchR keywords feedUrls tp maxResults now).map
        (fun x => x.url)).Nodup ∧
    (∀ a ∈ find_news_google h fetchG keywords tp maxResults now,
      a ∈ find_news_background h fetchG fetchR keywords feedUrls tp maxResults now) ∧
    (∀ a ∈ find_news_rss h fetchR feedUrls tp now,
      ∃ b ∈ find_news_background h fetchG fetchR keywords feedUrls tp maxResults now,
        b.url = a.url) ∧
    (∀ a ∈ find_news_google h fetchG keywords tp maxResults now,
      ∀ b ∈ find_news_background h fetchG fetchR keywords feedUrls tp maxResults now,
        b.url = a.url → b = a) := by
  have hg_eq : (if keywords = [] then []
      else find_news_google h fetchG keywords tp maxResults now) =
      find_news_google h fetchG keywords tp maxResults now := by
    by_cases hk : keywords = []
    · rw [if_pos hk, hk]; rfl
    · rw [if_neg hk]
  have hr_eq : (if feedUrls = [] then []
      else find_news_rss h fetchR feedUrls tp now) =
      find_news_rss h fetchR feedUrls tp now := by
    by_cases hu : feedUrls = []
    · rw [if_pos hu, hu]; rfl
    · rw [if_neg hu]
  have hGnd := find_news_google_url_nodup h fetchG keywords tp maxResults now
  have hminv := mergeRss_inv (find_news_rss h fetchR feedUrls tp now)
    (find_news_google h fetchG keywords tp maxResults now,
     (find_news_google h fetchG keywords tp maxResults now).map (fun x => x.url))
    (fun u => Iff.rfl) hGnd
  have hmkeep := mergeRss_keeps (find_news_rss h fetchR feedUrls tp now)
    (find_news_google h fetchG keywords tp maxResults now,
     (find_news_google h fetchG keywords tp maxResults now).map (fun x => x.url))
  have hmcov := mergeRss_covers (find_news_rss h fetchR feedUrls tp now)
    (find_news_google h fetchG keywords tp maxResults now,
     (find_news_google h fetchG keywords tp maxResults now).map (fun x => x.url))
    (fun u => Iff.rfl) hGnd
  have hbg0 : find_news_background h fetchG fetchR keywords feedUrls tp maxResults now =
      sortArts (dedupByUrl (mergeRssArticles
        (if feedUrls = [] then [] else find_news_rss h fetchR feedUrls tp now)
        ((if keywords = [] then []
           else find_news_google h fetchG keywords tp maxResults now),
         (if keywords = [] then []
           else find_news_google h fetchG keywords tp maxResults now).map
           (fun x => x.url))).1 []) := rfl
  rw [hg_eq, hr_eq] at hbg0
  have hbg : find_news_background h fetchG fetchR keywords feedUrls tp maxResults now =
      sortArts (mergeRssArticles (find_news_rss h fetchR feedUrls tp now)
        (find_news_google h fetchG keywords tp maxResults now,
         (find_news_google h fetchG keywords tp maxResults now).map
           (fun x => x.url))).1 := by
    rw [hbg0,
      dedupByUrl_eq_self _ [] hminv.2 (fun a _ => List.not_mem_nil a.url)]
  have hperm := List.perm_insertionSort
    (fun a b : Article => b.published_dt ≤ a.published_dt)
    (mergeRssArticles (find_news_rss h fetchR feedUrls tp now)
      (find_news_google h fetchG keywords tp maxResults now,
       (find_news_google h fetchG keywords tp maxResults now).map
         (fun x => x.url))).1
  have hmemG : ∀ a ∈ find_news_google h fetchG keywords tp maxResults now,
      a ∈ find_news_background h fetchG fetchR keywords feedUrls tp maxResults now := by
    intro a ha
    rw [hbg]
    rw [mem_sortArts]
    rcases hmkeep with ⟨t, ht⟩
    rw [ht]
    exact List.mem_append_left t ha
  have hnd : ((find_news_background h fetchG fetchR keywords feedUrls tp
      maxResults now).map (fun x => x.url)).Nodup := by
    rw [hbg]
    exact ((hperm.map (fun x => x.url)).nodup_iff).mpr hminv.2
  refine ⟨hnd, hmemG, ?_, ?_⟩
  · intro a ha
    rcases hmcov a ha with ⟨b, hb, hbu⟩
    refine ⟨b, ?_, hbu⟩
    rw [hbg, mem_sortArts]
    exact hb
  · intro a ha b hb hub
    exact List.inj_on_of_nodup_map hnd hb (hmemG a ha) hub

/-- Witness for C1: the demo Google article survives into the combined
discovery output. -/
theorem c1_dedup_invariant_witness :
    mkGoogleArticle demoHash "k" oldEntry 0 ∈
      find_news_background demoHash demoFetchG demoFetchR ["k"] []
        "Last 7 days" 50 608400 :=
  (c1_dedup_invariant demoHash demoFetchG demoFetchR ["k"] []
      "Last 7 days" 50 608400).2.1
    (mkGoogleArticle demoHash "k" oldEntry 0) (by decide)
